import Mathlib

/-!
Verification of the crypto-tracker real-time broadcast subsystem.

Shallow embedding of `src/backend/app/services/crypto_service.py` (the
cache-aside store) and `src/backend/app/api/websocket.py` (connection
registry, subscription index, broadcast scheduler, session protocol
handler), with theorems settling the specification claims.

Time is modelled as a natural number of seconds; `datetime.now()` becomes an
explicit `now` argument.  The upstream HTTP fetch becomes an explicit
`Except Unit PyVal` argument (error = non-2xx / timeout / transport error),
and each cache-aside operation additionally returns the number of Fetcher
calls it issued, so call-count properties can be stated directly.
-/

namespace CryptoTracker

/-- Python values as stored in the cache, with Python truthiness.
Payloads returned by the upstream are JSON-like; the `list` constructor
covers the market-listing payloads of `get_all_cryptos`. -/
inductive PyVal where
  | pynone : PyVal
  | pybool : Bool → PyVal
  | pyint : Int → PyVal
  | pystr : String → PyVal
  | pylist : List PyVal → PyVal
deriving Repr

/-- Python truthiness (`if cached:`): `None`, `False`, `0`, `""` and `[]`
are falsy, everything else is truthy. -/
def PyVal.truthy : PyVal → Bool
  | .pynone => false
  | .pybool b => b
  | .pyint n => n != 0
  | .pystr s => !s.isEmpty
  | .pylist xs => !xs.isEmpty

/-- Replace-or-insert for an association list, mirroring Python dict
assignment `m[k] = v` (insertion order of existing keys preserved). -/
def assocSet {β : Type} (m : List (String × β)) (k : String) (v : β) :
    List (String × β) :=
  if (m.lookup k).isSome then
    m.map (fun p => if p.1 = k then (k, v) else p)
  else
    m ++ [(k, v)]

/-- One cache entry: `{"data": ..., "expires_at": ...}` as written by
`CryptoService._set_cache`. -/
structure CacheEntry where
  data : PyVal
  expires_at : Nat
deriving Repr

/-- The cache state of `CryptoService`: the `_cache` dict. -/
structure CryptoService where
  cache : List (String × CacheEntry)
deriving Repr

/-- A fresh service: `self._cache = {}` in `CryptoService.__init__`. -/
def CryptoService.init : CryptoService := ⟨[]⟩

/-- Default TTL: `settings.CACHE_TTL_SECONDS = 300` in `config.py`. -/
def CACHE_TTL_SECONDS : Nat := 300

/-- Embeds `CryptoService._is_cache_valid`: the key is present and
`datetime.now() < cached["expires_at"]`. -/
def _is_cache_valid (s : CryptoService) (cache_key : String) (now : Nat) :
    Bool :=
  match s.cache.lookup cache_key with
  | Option.none => false
  | Option.some e => now < e.expires_at

/-- Embeds `CryptoService._get_from_cache`: the data when the entry is
valid, `None` otherwise. -/
def _get_from_cache (s : CryptoService) (cache_key : String) (now : Nat) :
    Option PyVal :=
  if _is_cache_valid s cache_key now then
    match s.cache.lookup cache_key with
    | Option.some e => Option.some e.data
    | Option.none => Option.none
  else
    Option.none

/-- Embeds `CryptoService._set_cache`: `ttl = ttl or self._cache_ttl`
(Python `or`, so an explicit `0` also falls back to the default), then the
entry is stored with `expires_at = now + ttl`. -/
def _set_cache (s : CryptoService) (cache_key : String) (data : PyVal)
    (ttl : Option Nat) (now : Nat) : CryptoService :=
  let t := match ttl with
    | Option.some v => if v = 0 then CACHE_TTL_SECONDS else v
    | Option.none => CACHE_TTL_SECONDS
  ⟨assocSet s.cache cache_key ⟨data, now + t⟩⟩

/-- The cache key built by `get_all_cryptos`:
`f"cryptos_{vs_currency}_{page}_{per_page}_{order}"`. -/
def cryptosCacheKey (vs_currency : String) (page per_page : Nat)
    (order : String) : String :=
  "cryptos_" ++ vs_currency ++ "_" ++ toString page ++ "_" ++
    toString per_page ++ "_" ++ order

/-- Embeds `CryptoService.get_all_cryptos`.  `fetch` is the outcome of the
upstream HTTP call (`Except.error` models `raise_for_status` raising, i.e.
the Fetcher erroring).  Returns the call result, the new service state and
the number of Fetcher calls issued (0 or 1).  The cached value
short-circuits only when it is truthy (`if cached:` in the source). -/
def get_all_cryptos (s : CryptoService) (vs_currency : String)
    (page per_page : Nat) (order : String) (now : Nat)
    (fetch : Except Unit PyVal) :
    Except Unit PyVal × CryptoService × Nat :=
  let cache_key := cryptosCacheKey vs_currency page per_page order
  let hit : Option PyVal :=
    match _get_from_cache s cache_key now with
    | Option.some cached =>
        if cached.truthy then Option.some cached else Option.none
    | Option.none => Option.none
  match hit with
  | Option.some cached => (Except.ok cached, s, 0)
  | Option.none =>
    match fetch with
    | Except.error e => (Except.error e, s, 1)
    | Except.ok data =>
        (Except.ok data, _set_cache s cache_key data Option.none now, 1)

/-! ## WebSocket connection manager (`src/backend/app/api/websocket.py`)

`active_connections : Dict[str, WebSocket]` is modelled by its key set (a
duplicate-free list of client ids in insertion order); the transport handle
is replaced by a send oracle `ok : String → Bool` passed to each delivery
operation (`ok c = false` models `websocket.send_json` raising).
`subscriptions : Dict[str, Set[str]]` is an association list from crypto id
to a duplicate-free list of client ids.  The asyncio task lifecycle is
modelled by `running` (the `_running` flag), `taskHandle` (whether
`_price_update_task` is not `None`) and `activeTasks` (how many scheduler
tasks are currently alive: `create_task` adds one, `cancel` of a live task
removes it). -/

/-- Adds an element to a Python-set-like list (no-op when present). -/
def setAdd (s : List String) (x : String) : List String :=
  if x ∈ s then s else s ++ [x]

/-- State of `ConnectionManager` (plus the scheduler-task counter used to
state the single-task invariant). -/
structure ConnectionManager where
  active_connections : List String
  subscriptions : List (String × List String)
  running : Bool
  taskHandle : Bool
  activeTasks : Nat
deriving Repr, DecidableEq

/-- Initial state built by `ConnectionManager.__init__`. -/
def ConnectionManager.init : ConnectionManager :=
  ⟨[], [], false, false, 0⟩

/-- Embeds `ConnectionManager.connect`: register the connection, then
`if not self._running:` set the flag and `create_task` the price-update
loop. -/
def connect (m : ConnectionManager) (client_id : String) :
    ConnectionManager :=
  if m.running then
    { m with active_connections := setAdd m.active_connections client_id }
  else
    { m with active_connections := setAdd m.active_connections client_id,
             running := true, taskHandle := true,
             activeTasks := m.activeTasks + 1 }

/-- The subscription cleanup performed by `ConnectionManager.disconnect`
(the Subscription Index `purge`): for every crypto id, `discard` the client
from its set and delete the entry when the set is (or was already) empty. -/
def purgeSubs (subs : List (String × List String)) (client_id : String) :
    List (String × List String) :=
  subs.filterMap (fun p =>
    let s := p.2.filter (fun x => x ≠ client_id)
    if s.isEmpty then Option.none else Option.some (p.1, s))

/-- Embeds `ConnectionManager.disconnect`: drop the connection, purge it
from every subscription set, and when no connections remain reset
`_running` and cancel the task (when a handle exists; cancelling an
already-finished task leaves the live-task count at zero). -/
def disconnect (m : ConnectionManager) (client_id : String) :
    ConnectionManager :=
  if (m.active_connections.filter (fun x => x ≠ client_id)).isEmpty then
    { m with
      active_connections :=
        m.active_connections.filter (fun x => x ≠ client_id),
      subscriptions := purgeSubs m.subscriptions client_id,
      running := false,
      activeTasks := if m.taskHandle then m.activeTasks - 1
                     else m.activeTasks }
  else
    { m with
      active_connections :=
        m.active_connections.filter (fun x => x ≠ client_id),
      subscriptions := purgeSubs m.subscriptions client_id }

/-- One iteration of the `ConnectionManager.subscribe` loop body for a
single crypto id: create the set when absent (`self.subscriptions[cid] =
set()`) and `add` the client to it. -/
def subscribeStep (m : ConnectionManager) (client_id cid : String) :
    ConnectionManager :=
  match m.subscriptions.lookup cid with
  | Option.none =>
      { m with subscriptions :=
          (assocSet m.subscriptions cid (setAdd [] client_id)) }
  | Option.some s =>
      { m with subscriptions :=
          (assocSet m.subscriptions cid (setAdd s client_id)) }

/-- Embeds `ConnectionManager.subscribe`: the loop over `crypto_ids`. -/
def subscribe (m : ConnectionManager) (client_id : String)
    (crypto_ids : List String) : ConnectionManager :=
  crypto_ids.foldl (fun m cid => subscribeStep m client_id cid) m

/-- One iteration of the `ConnectionManager.unsubscribe` loop body for a
single crypto id: when present, `discard` the client from its set.  Empty
sets are NOT deleted here (contrast with `purgeSubs`). -/
def unsubscribeStep (m : ConnectionManager) (client_id cid : String) :
    ConnectionManager :=
  match m.subscriptions.lookup cid with
  | Option.none => m
  | Option.some s =>
      { m with subscriptions :=
          (assocSet m.subscriptions cid
            (s.filter (fun x => x ≠ client_id))) }

/-- Embeds `ConnectionManager.unsubscribe`: the loop over `crypto_ids`. -/
def unsubscribe (m : ConnectionManager) (client_id : String)
    (crypto_ids : List String) : ConnectionManager :=
  crypto_ids.foldl (fun m cid => unsubscribeStep m client_id cid) m

/-- Fields of one record of the top-N market listing used by the
scheduler tick. -/
structure CryptoRecord where
  id : String
  symbol : String
  name : String
  current_price : Int
  price_change_24h : Option Int
  market_cap : Option Int
deriving Repr, DecidableEq

/-- Outbound server messages (timestamps omitted: wall-clock text does not
bear on any claim). -/
inductive Message where
  | price_update (data : List CryptoRecord)
  | coin_update (data : CryptoRecord)
  | subscribed (crypto_ids : List String)
  | unsubscribed (crypto_ids : List String)
  | pong
deriving Repr, DecidableEq

/-- Tests whether a message is a per-asset `coin_update` delta. -/
def Message.isCoinUpdate : Message → Bool
  | .coin_update _ => true
  | _ => false

/-- One attempted delivery: recipient, message, and whether
`websocket.send_json` succeeded. -/
structure SendEvent where
  client : String
  msg : Message
  success : Bool
deriving Repr, DecidableEq

/-- Embeds `ConnectionManager.send_personal_message`: send to one client
when registered; on failure `disconnect` it. -/
def send_personal_message (m : ConnectionManager) (msg : Message)
    (client_id : String) (ok : String → Bool) :
    ConnectionManager × List SendEvent :=
  if client_id ∈ m.active_connections then
    if ok client_id then (m, [⟨client_id, msg, true⟩])
    else (disconnect m client_id, [⟨client_id, msg, false⟩])
  else (m, [])

/-- Embeds `ConnectionManager.broadcast`: attempt a send to every
registered connection, collect the failures, then disconnect them after
the loop. -/
def broadcast (m : ConnectionManager) (msg : Message)
    (ok : String → Bool) : ConnectionManager × List SendEvent :=
  let events := m.active_connections.map (fun c => SendEvent.mk c msg (ok c))
  let disconnected := m.active_connections.filter (fun c => !(ok c))
  (disconnected.foldl disconnect m, events)

/-- Embeds `ConnectionManager.broadcast_to_subscribers`: deliver to each
subscriber of the crypto id that is still registered; failures are
collected and disconnected after the loop. -/
def broadcast_to_subscribers (m : ConnectionManager) (crypto_id : String)
    (msg : Message) (ok : String → Bool) :
    ConnectionManager × List SendEvent :=
  match m.subscriptions.lookup crypto_id with
  | Option.none => (m, [])
  | Option.some subs =>
    let recipients := subs.filter (fun c => c ∈ m.active_connections)
    let events := recipients.map (fun c => SendEvent.mk c msg (ok c))
    let disconnected := recipients.filter (fun c => !(ok c))
    (disconnected.foldl disconnect m, events)

/-- The global `price_update` payload built by
`_broadcast_price_updates` from the fetched listing. -/
def priceData (cryptos : List CryptoRecord) : List CryptoRecord := cryptos

/-- The per-asset `coin_update` payload (id, symbol, current price, 24h
change; name and market cap are not included in the source's delta, kept
here as record fields with their fetched values for simplicity of the
record type). -/
def coinDelta (c : CryptoRecord) : CryptoRecord := c

/-- One iteration of the per-asset delta loop of
`_broadcast_price_updates`: `if crypto["id"] in self.subscriptions:` then
deliver the `coin_update` delta to that asset's subscribers, accumulating
the delivery events. -/
def tickDelta (ok : String → Bool)
    (acc : ConnectionManager × List SendEvent) (crypto : CryptoRecord) :
    ConnectionManager × List SendEvent :=
  if (acc.1.subscriptions.lookup crypto.id).isSome then
    ((broadcast_to_subscribers acc.1 crypto.id
        (Message.coin_update (coinDelta crypto)) ok).1,
      acc.2 ++ (broadcast_to_subscribers acc.1 crypto.id
        (Message.coin_update (coinDelta crypto)) ok).2)
  else acc

/-- The body of one successful scheduler tick
(`ConnectionManager._broadcast_price_updates`, one loop iteration in which
`get_all_cryptos` succeeded): broadcast the global `price_update` to all
connections, then run the per-asset delta loop.  Returns the final state
and the delivery events in order. -/
def tickBody (m : ConnectionManager) (cryptos : List CryptoRecord)
    (ok : String → Bool) : ConnectionManager × List SendEvent :=
  ((cryptos.foldl (tickDelta ok)
      ((broadcast m (Message.price_update (priceData cryptos)) ok).1,
        [])).1,
    (broadcast m (Message.price_update (priceData cryptos)) ok).2 ++
      (cryptos.foldl (tickDelta ok)
        ((broadcast m (Message.price_update (priceData cryptos)) ok).1,
          [])).2)

/-- One pass of the scheduler loop top: `while self._running:` — when the
flag is down the loop body does not run and no message is produced. -/
def tickIfRunning (m : ConnectionManager) (cryptos : List CryptoRecord)
    (ok : String → Bool) : ConnectionManager × List SendEvent :=
  if m.running then tickBody m cryptos ok else (m, [])

/-- Inbound control message: `data.get("action")` and
`data.get("crypto_ids", [])`. -/
structure InMsg where
  action : Option String
  crypto_ids : List String
deriving Repr, DecidableEq

/-- One iteration of the session protocol loop in `websocket_endpoint`:
dispatch on the `action` field; unrecognized (or missing) actions fall
through with no state change and no reply. -/
def handleMessage (m : ConnectionManager) (client_id : String)
    (msg : InMsg) (ok : String → Bool) :
    ConnectionManager × List SendEvent :=
  if msg.action = Option.some "subscribe" then
    let m1 := subscribe m client_id msg.crypto_ids
    send_personal_message m1 (Message.subscribed msg.crypto_ids) client_id ok
  else if msg.action = Option.some "unsubscribe" then
    let m1 := unsubscribe m client_id msg.crypto_ids
    send_personal_message m1 (Message.unsubscribed msg.crypto_ids) client_id
      ok
  else if msg.action = Option.some "ping" then
    send_personal_message m Message.pong client_id ok
  else (m, [])

/-- Atomic operations on the shared manager state: the session-loop
operations (connect, disconnect, subscribe, unsubscribe, full message
dispatch) and the delivery operations (personal send, broadcasts, a
scheduler tick), each of which may evict connections on send failure. -/
inductive Step : ConnectionManager → ConnectionManager → Prop where
  | connect (m : ConnectionManager) (c : String) :
      Step m (connect m c)
  | disconnect (m : ConnectionManager) (c : String) :
      Step m (disconnect m c)
  | subscribe (m : ConnectionManager) (c : String) (ids : List String) :
      Step m (subscribe m c ids)
  | unsubscribe (m : ConnectionManager) (c : String) (ids : List String) :
      Step m (unsubscribe m c ids)
  | sendPersonal (m : ConnectionManager) (msg : Message) (c : String)
      (ok : String → Bool) :
      Step m (send_personal_message m msg c ok).1
  | broadcast (m : ConnectionManager) (msg : Message)
      (ok : String → Bool) :
      Step m (broadcast m msg ok).1
  | broadcastSubs (m : ConnectionManager) (cid : String) (msg : Message)
      (ok : String → Bool) :
      Step m (broadcast_to_subscribers m cid msg ok).1
  | tick (m : ConnectionManager) (cryptos : List CryptoRecord)
      (ok : String → Bool) :
      Step m (tickIfRunning m cryptos ok).1
  | handle (m : ConnectionManager) (c : String) (msg : InMsg)
      (ok : String → Bool) :
      Step m (handleMessage m c msg ok).1

/-- States reachable from the initial manager state by the atomic
operations. -/
inductive Reachable : ConnectionManager → Prop where
  | init : Reachable ConnectionManager.init
  | step {m m' : ConnectionManager} :
      Reachable m → Step m m' → Reachable m'

/-! ## Association-list (dict) lookup lemmas -/

theorem lookup_map_replace {β : Type} (k : String) (v : β)
    (m : List (String × β)) (h : (m.lookup k).isSome = true) :
    (m.map (fun p => if p.1 = k then (k, v) else p)).lookup k
      = Option.some v := by
  induction m with
  | nil => simp [List.lookup] at h
  | cons p t ih =>
    obtain ⟨a, b⟩ := p
    simp only [List.map_cons]
    by_cases hp : a = k
    · rw [show (if (a, b).1 = k then (k, v) else (a, b)) = (k, v) from by
        simp [hp]]
      simp [List.lookup]
    · rw [show (if (a, b).1 = k then (k, v) else (a, b)) = (a, b) from by
        simp [hp]]
      have hb : (k == a) = false := by simp [Ne.symm hp]
      simp only [List.lookup, hb] at h ⊢
      exact ih h

theorem lookup_map_replace_ne {β : Type} (k q : String) (v : β)
    (h : q ≠ k) (m : List (String × β)) :
    (m.map (fun p => if p.1 = k then (k, v) else p)).lookup q
      = m.lookup q := by
  induction m with
  | nil => simp
  | cons p t ih =>
    obtain ⟨a, b⟩ := p
    simp only [List.map_cons]
    by_cases hp : a = k
    · rw [show (if (a, b).1 = k then (k, v) else (a, b)) = (k, v) from by
        simp [hp]]
      have hb1 : (q == k) = false := by simp [h]
      have hb2 : (q == a) = false := by subst hp; simp [h]
      simp only [List.lookup, hb1, hb2]
      exact ih
    · rw [show (if (a, b).1 = k then (k, v) else (a, b)) = (a, b) from by
        simp [hp]]
      by_cases hq : q = a
      · simp [List.lookup, hq]
      · have hb : (q == a) = false := by simp [hq]
        simp only [List.lookup, hb]
        exact ih

theorem lookup_append_single {β : Type} (k : String) (v : β)
    (m : List (String × β)) (h : m.lookup k = Option.none) :
    (m ++ [(k, v)]).lookup k = Option.some v := by
  induction m with
  | nil => simp [List.lookup]
  | cons p t ih =>
    obtain ⟨a, b⟩ := p
    by_cases hp : k = a
    · simp [List.lookup, hp] at h
    · have hb : (k == a) = false := by simp [hp]
      simp only [List.lookup, hb] at h
      simp only [List.cons_append, List.lookup, hb]
      exact ih h

theorem lookup_append_single_ne {β : Type} (k q : String) (v : β)
    (h : q ≠ k) (m : List (String × β)) :
    (m ++ [(k, v)]).lookup q = m.lookup q := by
  induction m with
  | nil =>
    have hb : (q == k) = false := by simp [h]
    simp [List.lookup, hb]
  | cons p t ih =>
    obtain ⟨a, b⟩ := p
    by_cases hq : q = a
    · simp [List.lookup, hq]
    · have hb : (q == a) = false := by simp [hq]
      simp only [List.cons_append, List.lookup, hb]
      exact ih

theorem lookup_assocSet_self {β : Type} (m : List (String × β))
    (k : String) (v : β) :
    (assocSet m k v).lookup k = Option.some v := by
  unfold assocSet
  by_cases h : (m.lookup k).isSome
  · simp only [h, if_true]
    exact lookup_map_replace k v m h
  · simp only [h, if_false]
    have hn : m.lookup k = Option.none := by
      cases hc : m.lookup k with
      | none => rfl
      | some w => rw [hc] at h; simp at h
    exact lookup_append_single k v m hn

theorem lookup_assocSet_ne {β : Type} (m : List (String × β))
    (k q : String) (v : β) (h : q ≠ k) :
    (assocSet m k v).lookup q = m.lookup q := by
  unfold assocSet
  by_cases hs : (m.lookup k).isSome
  · simp only [hs, if_true]
    exact lookup_map_replace_ne k q v h m
  · simp only [hs, if_false]
    exact lookup_append_single_ne k q v h m

/-! ## Cache-aside behaviour lemmas -/

theorem get_all_cryptos_absent (s : CryptoService) (vs ord : String)
    (page pp now : Nat) (fetch : Except Unit PyVal)
    (h : s.cache.lookup (cryptosCacheKey vs page pp ord) = Option.none) :
    get_all_cryptos s vs page pp ord now fetch =
      match fetch with
      | Except.error e => (Except.error e, s, 1)
      | Except.ok data =>
          (Except.ok data,
            _set_cache s (cryptosCacheKey vs page pp ord) data Option.none
              now, 1) := by
  simp [get_all_cryptos, _get_from_cache, _is_cache_valid, h]

theorem get_all_cryptos_hit (s : CryptoService) (vs ord : String)
    (page pp now : Nat) (fetch : Except Unit PyVal) (e : CacheEntry)
    (h : s.cache.lookup (cryptosCacheKey vs page pp ord) = Option.some e)
    (hv : now < e.expires_at) (ht : e.data.truthy = true) :
    get_all_cryptos s vs page pp ord now fetch =
      (Except.ok e.data, s, 0) := by
  simp [get_all_cryptos, _get_from_cache, _is_cache_valid, h, hv, ht]

theorem get_all_cryptos_expired (s : CryptoService) (vs ord : String)
    (page pp now : Nat) (fetch : Except Unit PyVal) (e : CacheEntry)
    (h : s.cache.lookup (cryptosCacheKey vs page pp ord) = Option.some e)
    (hv : ¬ now < e.expires_at) :
    get_all_cryptos s vs page pp ord now fetch =
      match fetch with
      | Except.error err => (Except.error err, s, 1)
      | Except.ok data =>
          (Except.ok data,
            _set_cache s (cryptosCacheKey vs page pp ord) data Option.none
              now, 1) := by
  simp [get_all_cryptos, _get_from_cache, _is_cache_valid, h, hv]

theorem get_all_cryptos_falsy (s : CryptoService) (vs ord : String)
    (page pp now : Nat) (fetch : Except Unit PyVal) (e : CacheEntry)
    (h : s.cache.lookup (cryptosCacheKey vs page pp ord) = Option.some e)
    (hv : now < e.expires_at) (ht : e.data.truthy = false) :
    get_all_cryptos s vs page pp ord now fetch =
      match fetch with
      | Except.error err => (Except.error err, s, 1)
      | Except.ok data =>
          (Except.ok data,
            _set_cache s (cryptosCacheKey vs page pp ord) data Option.none
              now, 1) := by
  simp [get_all_cryptos, _get_from_cache, _is_cache_valid, h, hv, ht]

/-! ## Claim C2 -/

/-- C2 (counterexample): the claim fails as stated.  When the upstream
returns a falsy payload (here the empty list), a second `get_all_cryptos`
with the same parameters within the TTL window issues a SECOND Fetcher
call (total 2, not 1), because the truthiness guard `if cached:` treats
the stored empty payload as a miss. -/
theorem C2_counterexample :
    (get_all_cryptos CryptoService.init "usd" 1 100 "market_cap_desc" 0
        (Except.ok (PyVal.pylist []))).2.2 +
      (get_all_cryptos
        (get_all_cryptos CryptoService.init "usd" 1 100 "market_cap_desc" 0
          (Except.ok (PyVal.pylist []))).2.1
        "usd" 1 100 "market_cap_desc" 0
        (Except.ok (PyVal.pylist []))).2.2 = 2 := by
  rfl

/-- C2 (amended): for a key with no prior cache entry, two
`get_all_cryptos` calls with the same parameters within the TTL window
issue exactly one Fetcher call in total, PROVIDED the first fetched
payload is truthy (e.g. a non-empty list); and one call followed by a
second call at or after TTL expiry issues exactly two Fetcher calls. -/
theorem C2_single_fetch_within_ttl (s : CryptoService) (vs ord : String)
    (page pp t0 t1 t2 : Nat) (d d1 d2 : PyVal)
    (h0 : s.cache.lookup (cryptosCacheKey vs page pp ord) = Option.none)
    (ht : d.truthy = true)
    (hw : t1 < t0 + CACHE_TTL_SECONDS)
    (he : t0 + CACHE_TTL_SECONDS ≤ t2) :
    ((get_all_cryptos s vs page pp ord t0 (Except.ok d)).2.2 +
        (get_all_cryptos
          (get_all_cryptos s vs page pp ord t0 (Except.ok d)).2.1
          vs page pp ord t1 (Except.ok d1)).2.2 = 1) ∧
    ((get_all_cryptos s vs page pp ord t0 (Except.ok d)).2.2 +
        (get_all_cryptos
          (get_all_cryptos s vs page pp ord t0 (Except.ok d)).2.1
          vs page pp ord t2 (Except.ok d2)).2.2 = 2) := by
  have e1 : get_all_cryptos s vs page pp ord t0 (Except.ok d) =
      (Except.ok d,
        _set_cache s (cryptosCacheKey vs page pp ord) d Option.none t0,
        1) := by
    rw [get_all_cryptos_absent s vs ord page pp t0 (Except.ok d) h0]
  have hl : (_set_cache s (cryptosCacheKey vs page pp ord) d Option.none
      t0).cache.lookup (cryptosCacheKey vs page pp ord) =
      Option.some ⟨d, t0 + CACHE_TTL_SECONDS⟩ := by
    show (assocSet s.cache (cryptosCacheKey vs page pp ord)
      ⟨d, t0 + CACHE_TTL_SECONDS⟩).lookup
      (cryptosCacheKey vs page pp ord) = _
    exact lookup_assocSet_self _ _ _
  constructor
  · rw [e1]
    have e2 : get_all_cryptos
        (_set_cache s (cryptosCacheKey vs page pp ord) d Option.none t0)
        vs page pp ord t1 (Except.ok d1) =
        (Except.ok d,
          _set_cache s (cryptosCacheKey vs page pp ord) d Option.none t0,
          0) :=
      get_all_cryptos_hit _ vs ord page pp t1 (Except.ok d1)
        ⟨d, t0 + CACHE_TTL_SECONDS⟩ hl hw ht
    show 1 + (get_all_cryptos
      (_set_cache s (cryptosCacheKey vs page pp ord) d Option.none t0)
      vs page pp ord t1 (Except.ok d1)).2.2 = 1
    rw [e2]
    rfl
  · rw [e1]
    have e3 : get_all_cryptos
        (_set_cache s (cryptosCacheKey vs page pp ord) d Option.none t0)
        vs page pp ord t2 (Except.ok d2) =
        (Except.ok d2,
          _set_cache
            (_set_cache s (cryptosCacheKey vs page pp ord) d Option.none
              t0)
            (cryptosCacheKey vs page pp ord) d2 Option.none t2, 1) := by
      rw [get_all_cryptos_expired _ vs ord page pp t2 (Except.ok d2)
        ⟨d, t0 + CACHE_TTL_SECONDS⟩ hl
        (by show ¬ t2 < t0 + CACHE_TTL_SECONDS; omega)]
    show 1 + (get_all_cryptos
      (_set_cache s (cryptosCacheKey vs page pp ord) d Option.none t0)
      vs page pp ord t2 (Except.ok d2)).2.2 = 2
    rw [e3]
    rfl

/-- C2 (witness): concrete run of the amended theorem: empty cache, truthy
payload, second call 299 s later (within the 300 s TTL), third call at
300 s (expired). -/
theorem C2_single_fetch_within_ttl_witness :
    ((get_all_cryptos CryptoService.init "usd" 1 100 "market_cap_desc" 0
        (Except.ok (PyVal.pylist [PyVal.pyint 1]))).2.2 +
      (get_all_cryptos
        (get_all_cryptos CryptoService.init "usd" 1 100 "market_cap_desc"
          0 (Except.ok (PyVal.pylist [PyVal.pyint 1]))).2.1
        "usd" 1 100 "market_cap_desc" 299
        (Except.ok (PyVal.pylist []))).2.2 = 1) ∧
    ((get_all_cryptos CryptoService.init "usd" 1 100 "market_cap_desc" 0
        (Except.ok (PyVal.pylist [PyVal.pyint 1]))).2.2 +
      (get_all_cryptos
        (get_all_cryptos CryptoService.init "usd" 1 100 "market_cap_desc"
          0 (Except.ok (PyVal.pylist [PyVal.pyint 1]))).2.1
        "usd" 1 100 "market_cap_desc" 300
        (Except.ok (PyVal.pylist []))).2.2 = 2) :=
  C2_single_fetch_within_ttl CryptoService.init "usd" "market_cap_desc"
    1 100 0 299 300 (PyVal.pylist [PyVal.pyint 1]) (PyVal.pylist [])
    (PyVal.pylist []) rfl rfl (by decide) (by decide)

/-! ## Claim C3 -/

/-- C3 (counterexample): the claim's "stale expired entry is discarded
from the cache" part fails.  Concrete run: the cache holds an entry for
the key that expired at time 5, the call happens at time 10 and the
Fetcher errors; afterwards the expired entry is still present in the
cache (it was merely not served). -/
theorem C3_counterexample :
    ((get_all_cryptos
        ⟨[(cryptosCacheKey "usd" 1 100 "market_cap_desc",
           ⟨PyVal.pylist [PyVal.pyint 1], 5⟩)]⟩
        "usd" 1 100 "market_cap_desc" 10 (Except.error ())).2.1).cache.lookup
      (cryptosCacheKey "usd" 1 100 "market_cap_desc") =
      Option.some ⟨PyVal.pylist [PyVal.pyint 1], 5⟩ := by
  rfl

/-- C3 (amended): if the Fetcher errors, the service state is completely
unchanged (no cache entry is written or updated, and in particular a
stale expired entry stays in the map, merely unserved), and whenever the
Fetcher was actually called (call count 1) the operation fails with the
upstream error. -/
theorem C3_fetch_error_no_write (s : CryptoService) (vs ord : String)
    (page pp now : Nat) :
    (get_all_cryptos s vs page pp ord now (Except.error ())).2.1 = s ∧
    ((get_all_cryptos s vs page pp ord now (Except.error ())).2.2 = 1 →
      (get_all_cryptos s vs page pp ord now (Except.error ())).1 =
        Except.error ()) := by
  cases hc : _get_from_cache s (cryptosCacheKey vs page pp ord) now with
  | none => simp [get_all_cryptos, hc]
  | some c =>
    by_cases ht : c.truthy
    · simp [get_all_cryptos, hc, ht]
    · simp [get_all_cryptos, hc, ht]

/-- C3 (witness): concrete run of the amended theorem on a service whose
only entry expired at time 5, called at time 10 with a failing Fetcher. -/
theorem C3_fetch_error_no_write_witness :
    (get_all_cryptos
        ⟨[(cryptosCacheKey "usd" 1 100 "market_cap_desc",
           ⟨PyVal.pylist [PyVal.pyint 1], 5⟩)]⟩
        "usd" 1 100 "market_cap_desc" 10 (Except.error ())).2.1 =
      ⟨[(cryptosCacheKey "usd" 1 100 "market_cap_desc",
         ⟨PyVal.pylist [PyVal.pyint 1], 5⟩)]⟩ ∧
    ((get_all_cryptos
        ⟨[(cryptosCacheKey "usd" 1 100 "market_cap_desc",
           ⟨PyVal.pylist [PyVal.pyint 1], 5⟩)]⟩
        "usd" 1 100 "market_cap_desc" 10 (Except.error ())).2.2 = 1 →
      (get_all_cryptos
        ⟨[(cryptosCacheKey "usd" 1 100 "market_cap_desc",
           ⟨PyVal.pylist [PyVal.pyint 1], 5⟩)]⟩
        "usd" 1 100 "market_cap_desc" 10 (Except.error ())).1 =
        Except.error ()) :=
  C3_fetch_error_no_write
    ⟨[(cryptosCacheKey "usd" 1 100 "market_cap_desc",
       ⟨PyVal.pylist [PyVal.pyint 1], 5⟩)]⟩
    "usd" "market_cap_desc" 1 100 10

/-! ## Claim C10 -/

/-- C10: a valid-in-TTL cache entry whose payload is falsy (e.g. the empty
list) is treated as a miss — the operation issues a Fetcher call; a valid
entry short-circuits the Fetcher (zero calls, cached payload returned)
exactly when its payload is truthy. -/
theorem C10_falsy_cache_is_miss (s : CryptoService) (vs ord : String)
    (page pp now : Nat) (fetch : Except Unit PyVal) (e : CacheEntry)
    (h : s.cache.lookup (cryptosCacheKey vs page pp ord) = Option.some e)
    (hv : now < e.expires_at) :
    (e.data.truthy = false →
      (get_all_cryptos s vs page pp ord now fetch).2.2 = 1) ∧
    (e.data.truthy = true →
      (get_all_cryptos s vs page pp ord now fetch).2.2 = 0 ∧
      (get_all_cryptos s vs page pp ord now fetch).1 =
        Except.ok e.data) := by
  constructor
  · intro ht
    rw [get_all_cryptos_falsy s vs ord page pp now fetch e h hv ht]
    cases fetch <;> rfl
  · intro ht
    rw [get_all_cryptos_hit s vs ord page pp now fetch e h hv ht]
    exact ⟨rfl, rfl⟩

/-- C10 (witness): concrete run: an unexpired entry holding the empty
list is bypassed and the Fetcher is called once. -/
theorem C10_falsy_cache_is_miss_witness :
    (get_all_cryptos
        ⟨[(cryptosCacheKey "usd" 1 100 "market_cap_desc",
           ⟨PyVal.pylist [], 300⟩)]⟩
        "usd" 1 100 "market_cap_desc" 0
        (Except.ok (PyVal.pylist [PyVal.pyint 1]))).2.2 = 1 :=
  (C10_falsy_cache_is_miss
    ⟨[(cryptosCacheKey "usd" 1 100 "market_cap_desc",
       ⟨PyVal.pylist [], 300⟩)]⟩
    "usd" "market_cap_desc" 1 100 0
    (Except.ok (PyVal.pylist [PyVal.pyint 1]))
    ⟨PyVal.pylist [], 300⟩ rfl (by decide)).1 rfl

/-! ## Subscription-index lemmas -/

theorem mem_setAdd_self (s : List String) (x : String) :
    x ∈ setAdd s x := by
  unfold setAdd
  by_cases h : x ∈ s
  · simp [h]
  · simp [h]

theorem not_mem_filter_ne (l : List String) (c : String) :
    c ∉ l.filter (fun x => x ≠ c) := by
  intro h
  have := List.of_mem_filter h
  simp at this

theorem filter_ne_idem (l : List String) (c : String) :
    (l.filter (fun x => x ≠ c)).filter (fun x => x ≠ c)
      = l.filter (fun x => x ≠ c) := by
  induction l with
  | nil => rfl
  | cons x t ih =>
    by_cases h : x = c
    · simp [List.filter_cons, h, ih]
    · simp [List.filter_cons, h, ih]

theorem filter_ne_of_not_mem (l : List String) (c : String) (h : c ∉ l) :
    l.filter (fun x => x ≠ c) = l := by
  apply List.filter_eq_self.mpr
  intro a ha
  simp
  intro e
  exact h (e ▸ ha)

/-- Effect of one `unsubscribe` loop iteration on a lookup. -/
theorem lookup_unsubscribeStep (m : ConnectionManager) (c i a : String) :
    (unsubscribeStep m c i).subscriptions.lookup a =
      if i = a then
        (m.subscriptions.lookup a).map (fun s => s.filter (fun x => x ≠ c))
      else m.subscriptions.lookup a := by
  unfold unsubscribeStep
  cases hlk : m.subscriptions.lookup i with
  | none =>
    by_cases hi : i = a
    · subst hi
      simp [hlk]
    · simp [hi]
  | some s =>
    by_cases hi : i = a
    · subst hi
      simp only [if_pos rfl, hlk, Option.map_some]
      exact lookup_assocSet_self _ _ _
    · simp only [if_neg hi]
      exact lookup_assocSet_ne _ _ _ _ (fun e => hi e.symm)

/-! ## Claim C1 -/

/-- C1 (counterexample): the claim fails as stated.  From the initial
state, `subscribe("c1", ["btc"])` followed by `unsubscribe("c1", ["btc"])`
leaves the index with an entry for `"btc"` whose subscriber set is empty:
`unsubscribe` discards the client but never deletes an emptied entry. -/
theorem C1_counterexample :
    (unsubscribe (subscribe ConnectionManager.init "c1" ["btc"]) "c1"
        ["btc"]).subscriptions.lookup "btc" = Option.some [] := by
  rfl

/-- C1 (amended): `unsubscribe(c, ids)` never deletes an entry; for every
asset id `a`, the entry after `unsubscribe` is exactly the entry before
with `c` discarded from its set when `a` is named in `ids` (so an emptied
set remains in the index as a dangling empty entry; empty entries are only
pruned later by the disconnect purge). -/
theorem C1_unsubscribe_keeps_entries (m : ConnectionManager)
    (c a : String) (ids : List String) :
    (unsubscribe m c ids).subscriptions.lookup a =
      (m.subscriptions.lookup a).map
        (fun s => if a ∈ ids then s.filter (fun x => x ≠ c) else s) := by
  induction ids generalizing m with
  | nil =>
    simp [unsubscribe]
  | cons i ids ih =>
    have hstep : unsubscribe m c (i :: ids) =
        unsubscribe (unsubscribeStep m c i) c ids := rfl
    rw [hstep, ih, lookup_unsubscribeStep]
    by_cases hi : i = a
    · subst hi
      cases hlk : m.subscriptions.lookup i with
      | none => simp
      | some s =>
        simp only [if_pos rfl, Option.map_some, List.mem_cons,
          true_or, if_true, eq_self_iff_true]
        by_cases hmem : i ∈ ids
        · simp [hmem, filter_ne_idem]
        · simp [hmem]
    · have hne : a ≠ i := fun e => hi e.symm
      simp only [if_neg hi]
      cases hlk : m.subscriptions.lookup a with
      | none => simp
      | some s => simp [List.mem_cons, hne]

/-- Unfolding of the disconnect purge on one index entry. -/
theorem purgeSubs_cons (k : String) (l : List String)
    (t : List (String × List String)) (c : String) :
    purgeSubs ((k, l) :: t) c =
      if (l.filter (fun x => x ≠ c)).isEmpty then purgeSubs t c
      else (k, l.filter (fun x => x ≠ c)) :: purgeSubs t c := by
  by_cases he : (l.filter (fun x => x ≠ c)).isEmpty
  · rw [if_pos he]
    unfold purgeSubs
    rw [List.filterMap_cons_none]
    show (if (l.filter (fun x => x ≠ c)).isEmpty then
        (Option.none : Option (String × List String))
        else Option.some (k, l.filter (fun x => x ≠ c))) = Option.none
    rw [if_pos he]
  · rw [if_neg he]
    unfold purgeSubs
    rw [List.filterMap_cons_some]
    show (if (l.filter (fun x => x ≠ c)).isEmpty then
        (Option.none : Option (String × List String))
        else Option.some (k, l.filter (fun x => x ≠ c))) =
      Option.some (k, l.filter (fun x => x ≠ c))
    rw [if_neg he]

/-! ## Claim C7 -/

/-- C7 (counterexample): the claim fails as stated.  The reachable index
state `[("btc", [])]` (built by `subscribe("c1", ["btc"])` then
`unsubscribe("c1", ["btc"])`) is changed by purging `"c2"`, a connection
with no subscriptions: the purge deletes the dangling empty entry. -/
theorem C7_counterexample :
    purgeSubs (unsubscribe (subscribe ConnectionManager.init "c1"
        ["btc"]) "c1" ["btc"]).subscriptions "c2" ≠
      (unsubscribe (subscribe ConnectionManager.init "c1"
        ["btc"]) "c1" ["btc"]).subscriptions := by
  decide

/-- C7 (amended): the disconnect purge removes `c` from every asset's
subscriber set and is idempotent; purging a connection with no
subscriptions leaves the index unchanged PROVIDED the index contains no
dangling empty subscriber set (the purge additionally deletes any entry
whose set is, or becomes, empty). -/
theorem C7_purge_removes_everywhere
    (subs : List (String × List String)) (c : String) :
    (∀ a s, (purgeSubs subs c).lookup a = Option.some s → c ∉ s) ∧
    purgeSubs (purgeSubs subs c) c = purgeSubs subs c ∧
    ((∀ p ∈ subs, c ∉ p.2 ∧ p.2 ≠ []) → purgeSubs subs c = subs) := by
  refine ⟨?_, ?_, ?_⟩
  · intro a s h
    induction subs with
    | nil => simp [purgeSubs] at h
    | cons p t ih =>
      obtain ⟨k, l⟩ := p
      rw [purgeSubs_cons] at h
      by_cases he : (l.filter (fun x => x ≠ c)).isEmpty
      · rw [if_pos he] at h
        exact ih h
      · rw [if_neg he] at h
        by_cases hk : a = k
        · have hb : (a == k) = true := by simp [hk]
          simp only [List.lookup, hb] at h
          cases h
          exact not_mem_filter_ne l c
        · have hb : (a == k) = false := by simp [hk]
          simp only [List.lookup, hb] at h
          exact ih h
  · induction subs with
    | nil => rfl
    | cons p t ih =>
      obtain ⟨k, l⟩ := p
      rw [purgeSubs_cons]
      by_cases he : (l.filter (fun x => x ≠ c)).isEmpty
      · rw [if_pos he]
        exact ih
      · rw [if_neg he, purgeSubs_cons, filter_ne_idem, if_neg he, ih]
  · intro hno
    induction subs with
    | nil => rfl
    | cons p t ih =>
      obtain ⟨k, l⟩ := p
      have hc : c ∉ l := (hno (k, l) (List.mem_cons_self _ _)).1
      have hl : l ≠ [] := (hno (k, l) (List.mem_cons_self _ _)).2
      have hfil : l.filter (fun x => x ≠ c) = l :=
        filter_ne_of_not_mem l c hc
      have he : ¬ (l.filter (fun x => x ≠ c)).isEmpty = true := by
        rw [hfil]
        cases l with
        | nil => exact absurd rfl hl
        | cons y ys => simp
      rw [purgeSubs_cons, if_neg he, hfil,
        ih (fun p hp => hno p (List.mem_cons_of_mem _ hp))]

/-- C7 (witness): concrete runs of the three parts of the purge theorem:
`"c1"` is gone from the surviving `"btc"` set, purging twice equals
purging once, and purging an unsubscribed connection from an index with
no empty sets changes nothing. -/
theorem C7_purge_removes_everywhere_witness :
    ("c1" ∉ (["c2"] : List String)) ∧
    purgeSubs (purgeSubs [("btc", ["c1", "c2"])] "c1") "c1" =
      purgeSubs [("btc", ["c1", "c2"])] "c1" ∧
    purgeSubs [("btc", ["c2"])] "c3" = [("btc", ["c2"])] :=
  ⟨(C7_purge_removes_everywhere [("btc", ["c1", "c2"])] "c1").1
      "btc" ["c2"] (by rfl),
   (C7_purge_removes_everywhere [("btc", ["c1", "c2"])] "c1").2.1,
   (C7_purge_removes_everywhere [("btc", ["c2"])] "c3").2.2 (by decide)⟩

/-! ## Claim C8 -/

/-- C8: after `subscribe(c, [a])` the subscriber set of `a` contains `c`,
and after a subsequent `unsubscribe(c, [a])` it no longer does. -/
theorem C8_subscribe_then_unsubscribe (m : ConnectionManager)
    (c a : String) :
    (∃ s, (subscribe m c [a]).subscriptions.lookup a = Option.some s ∧
      c ∈ s) ∧
    (∀ s, (unsubscribe (subscribe m c [a]) c [a]).subscriptions.lookup a
        = Option.some s → c ∉ s) := by
  have hsub : ∃ t, (subscribe m c [a]).subscriptions.lookup a =
      Option.some (setAdd t c) := by
    show ∃ t, (subscribeStep m c a).subscriptions.lookup a =
      Option.some (setAdd t c)
    unfold subscribeStep
    cases hlk : m.subscriptions.lookup a with
    | none => exact ⟨[], lookup_assocSet_self _ _ _⟩
    | some s => exact ⟨s, lookup_assocSet_self _ _ _⟩
  obtain ⟨t, hlk⟩ := hsub
  constructor
  · exact ⟨setAdd t c, hlk, mem_setAdd_self t c⟩
  · intro s hs
    have hun : (unsubscribe (subscribe m c [a]) c [a]).subscriptions.lookup
        a = Option.some ((setAdd t c).filter (fun x => x ≠ c)) := by
      show (unsubscribeStep (subscribe m c [a]) c a).subscriptions.lookup
        a = _
      unfold unsubscribeStep
      rw [hlk]
      exact lookup_assocSet_self _ _ _
    rw [hun] at hs
    cases hs
    exact not_mem_filter_ne _ c

/-- C8 (witness): concrete run from the initial state with client `"c1"`
and asset `"btc"`: the emptied set no longer contains `"c1"`. -/
theorem C8_subscribe_then_unsubscribe_witness :
    "c1" ∉ ([] : List String) :=
  (C8_subscribe_then_unsubscribe ConnectionManager.init "c1" "btc").2
    [] rfl

/-! ## Scheduler-lifecycle invariant (claim C4) -/

theorem setAdd_ne_nil (s : List String) (x : String) :
    setAdd s x ≠ [] := by
  unfold setAdd
  by_cases h : x ∈ s
  · simp only [h, if_true]
    exact List.ne_nil_of_mem h
  · simp [h]

/-- The effect of `disconnect` on the registry is always the removal of
the client, whichever scheduler branch is taken. -/
theorem disconnect_conns (m : ConnectionManager) (c : String) :
    (disconnect m c).active_connections =
      m.active_connections.filter (fun x => x ≠ c) := by
  unfold disconnect
  by_cases h :
    (m.active_connections.filter (fun x => x ≠ c)).isEmpty
  · rw [if_pos h]
  · rw [if_neg h]

theorem subscribeStep_fields (m : ConnectionManager) (c i : String) :
    (subscribeStep m c i).active_connections = m.active_connections ∧
    (subscribeStep m c i).running = m.running ∧
    (subscribeStep m c i).taskHandle = m.taskHandle ∧
    (subscribeStep m c i).activeTasks = m.activeTasks := by
  unfold subscribeStep
  cases m.subscriptions.lookup i <;> exact ⟨rfl, rfl, rfl, rfl⟩

theorem subscribe_fields (m : ConnectionManager) (c : String)
    (ids : List String) :
    (subscribe m c ids).active_connections = m.active_connections ∧
    (subscribe m c ids).running = m.running ∧
    (subscribe m c ids).taskHandle = m.taskHandle ∧
    (subscribe m c ids).activeTasks = m.activeTasks := by
  induction ids generalizing m with
  | nil => exact ⟨rfl, rfl, rfl, rfl⟩
  | cons i t ih =>
    have hstep : subscribe m c (i :: t) =
        subscribe (subscribeStep m c i) c t := rfl
    rw [hstep]
    have h1 := subscribeStep_fields m c i
    have h2 := ih (subscribeStep m c i)
    exact ⟨h2.1.trans h1.1, h2.2.1.trans h1.2.1,
      h2.2.2.1.trans h1.2.2.1, h2.2.2.2.trans h1.2.2.2⟩

theorem unsubscribeStep_fields (m : ConnectionManager) (c i : String) :
    (unsubscribeStep m c i).active_connections = m.active_connections ∧
    (unsubscribeStep m c i).running = m.running ∧
    (unsubscribeStep m c i).taskHandle = m.taskHandle ∧
    (unsubscribeStep m c i).activeTasks = m.activeTasks := by
  unfold unsubscribeStep
  cases m.subscriptions.lookup i <;> exact ⟨rfl, rfl, rfl, rfl⟩

theorem unsubscribe_fields (m : ConnectionManager) (c : String)
    (ids : List String) :
    (unsubscribe m c ids).active_connections = m.active_connections ∧
    (unsubscribe m c ids).running = m.running ∧
    (unsubscribe m c ids).taskHandle = m.taskHandle ∧
    (unsubscribe m c ids).activeTasks = m.activeTasks := by
  induction ids generalizing m with
  | nil => exact ⟨rfl, rfl, rfl, rfl⟩
  | cons i t ih =>
    have hstep : unsubscribe m c (i :: t) =
        unsubscribe (unsubscribeStep m c i) c t := rfl
    rw [hstep]
    have h1 := unsubscribeStep_fields m c i
    have h2 := ih (unsubscribeStep m c i)
    exact ⟨h2.1.trans h1.1, h2.2.1.trans h1.2.1,
      h2.2.2.1.trans h1.2.2.1, h2.2.2.2.trans h1.2.2.2⟩

/-- The scheduler-lifecycle invariant: the number of live scheduler tasks
matches the `_running` flag (so never exceeds one), the flag is up exactly
when the registry is non-empty, and a running scheduler always has a task
handle recorded. -/
def SchedInv (m : ConnectionManager) : Prop :=
  (m.activeTasks = if m.running then 1 else 0) ∧
  (m.running = true ↔ m.active_connections ≠ []) ∧
  (m.running = true → m.taskHandle = true)

theorem SchedInv_init : SchedInv ConnectionManager.init := by
  refine ⟨rfl, ?_, ?_⟩
  · constructor
    · intro h
      cases h
    · intro h
      exact absurd rfl h
  · intro h
    cases h

theorem SchedInv_connect (m : ConnectionManager) (c : String)
    (h : SchedInv m) : SchedInv (connect m c) := by
  obtain ⟨h1, h2, h3⟩ := h
  unfold connect
  by_cases hr : m.running
  · rw [if_pos hr]
    refine ⟨?_, ?_, ?_⟩
    · show m.activeTasks = if m.running then 1 else 0
      exact h1
    · show m.running = true ↔ setAdd m.active_connections c ≠ []
      simp [hr, setAdd_ne_nil]
    · intro _
      exact h3 hr
  · rw [if_neg hr]
    refine ⟨?_, ?_, ?_⟩
    · show m.activeTasks + 1 = if true then 1 else 0
      have : m.activeTasks = 0 := by
        rw [h1]
        simp [hr]
      rw [this]
      rfl
    · show true = true ↔ setAdd m.active_connections c ≠ []
      simp [setAdd_ne_nil]
    · intro _
      rfl

theorem SchedInv_disconnect (m : ConnectionManager) (c : String)
    (h : SchedInv m) : SchedInv (disconnect m c) := by
  obtain ⟨h1, h2, h3⟩ := h
  unfold disconnect
  by_cases he : (m.active_connections.filter (fun x => x ≠ c)).isEmpty
  · rw [if_pos he]
    refine ⟨?_, ?_, ?_⟩
    · show (if m.taskHandle then m.activeTasks - 1 else m.activeTasks) =
        if false then 1 else 0
      by_cases hr : m.running
      · rw [h3 hr, if_pos rfl, h1]
        simp [hr]
      · have h0 : m.activeTasks = 0 := by
          rw [h1]
          simp [hr]
        by_cases hh : m.taskHandle
        · rw [if_pos hh, h0]
          rfl
        · rw [if_neg hh, h0]
          rfl
    · show false = true ↔
        m.active_connections.filter (fun x => x ≠ c) ≠ []
      have hnil : m.active_connections.filter (fun x => x ≠ c) = [] :=
        List.isEmpty_iff.mp he
      constructor
      · intro hf
        cases hf
      · intro hne
        exact absurd hnil hne
    · intro hf
      cases hf
  · rw [if_neg he]
    refine ⟨?_, ?_, ?_⟩
    · exact h1
    · show m.running = true ↔
        m.active_connections.filter (fun x => x ≠ c) ≠ []
      constructor
      · intro _ hnil
        exact he (by rw [hnil]; rfl)
      · intro _
        by_cases hr : m.running
        · exact hr
        · exfalso
          have hnil : m.active_connections = [] := by
            by_cases hn : m.active_connections = []
            · exact hn
            · exact absurd (h2.mpr hn) hr
          apply he
          rw [hnil]
          rfl
    · exact h3

theorem SchedInv_subscribe (m : ConnectionManager) (c : String)
    (ids : List String) (h : SchedInv m) : SchedInv (subscribe m c ids) := by
  obtain ⟨f1, f2, f3, f4⟩ := subscribe_fields m c ids
  exact ⟨by rw [f4, f2]; exact h.1, by rw [f2, f1]; exact h.2.1,
    by rw [f2, f3]; exact h.2.2⟩

theorem SchedInv_unsubscribe (m : ConnectionManager) (c : String)
    (ids : List String) (h : SchedInv m) :
    SchedInv (unsubscribe m c ids) := by
  obtain ⟨f1, f2, f3, f4⟩ := unsubscribe_fields m c ids
  exact ⟨by rw [f4, f2]; exact h.1, by rw [f2, f1]; exact h.2.1,
    by rw [f2, f3]; exact h.2.2⟩

theorem SchedInv_foldl_disconnect (L : List String)
    (m : ConnectionManager) (h : SchedInv m) :
    SchedInv (L.foldl disconnect m) := by
  induction L generalizing m with
  | nil => exact h
  | cons x t ih => exact ih _ (SchedInv_disconnect m x h)

theorem SchedInv_broadcast (m : ConnectionManager) (msg : Message)
    (ok : String → Bool) (h : SchedInv m) :
    SchedInv (broadcast m msg ok).1 :=
  SchedInv_foldl_disconnect _ m h

theorem SchedInv_send_personal (m : ConnectionManager) (msg : Message)
    (c : String) (ok : String → Bool) (h : SchedInv m) :
    SchedInv (send_personal_message m msg c ok).1 := by
  unfold send_personal_message
  by_cases hm : c ∈ m.active_connections
  · rw [if_pos hm]
    by_cases hk : ok c
    · rw [if_pos hk]
      exact h
    · rw [if_neg hk]
      exact SchedInv_disconnect m c h
  · rw [if_neg hm]
    exact h

theorem SchedInv_broadcast_subs (m : ConnectionManager) (cid : String)
    (msg : Message) (ok : String → Bool) (h : SchedInv m) :
    SchedInv (broadcast_to_subscribers m cid msg ok).1 := by
  unfold broadcast_to_subscribers
  cases m.subscriptions.lookup cid with
  | none => exact h
  | some subs => exact SchedInv_foldl_disconnect _ m h

theorem SchedInv_foldl_tickDelta (cryptos : List CryptoRecord)
    (ok : String → Bool) (acc : ConnectionManager × List SendEvent)
    (h : SchedInv acc.1) :
    SchedInv (cryptos.foldl (tickDelta ok) acc).1 := by
  induction cryptos generalizing acc with
  | nil => exact h
  | cons cr t ih =>
    apply ih
    unfold tickDelta
    by_cases hs : (acc.1.subscriptions.lookup cr.id).isSome
    · rw [if_pos hs]
      exact SchedInv_broadcast_subs acc.1 cr.id _ ok h
    · rw [if_neg hs]
      exact h

theorem SchedInv_tickIfRunning (m : ConnectionManager)
    (cryptos : List CryptoRecord) (ok : String → Bool) (h : SchedInv m) :
    SchedInv (tickIfRunning m cryptos ok).1 := by
  unfold tickIfRunning
  by_cases hr : m.running
  · rw [if_pos hr]
    show SchedInv (cryptos.foldl (tickDelta ok)
      ((broadcast m (Message.price_update (priceData cryptos)) ok).1,
        [])).1
    exact SchedInv_foldl_tickDelta cryptos ok _
      (SchedInv_broadcast m (Message.price_update (priceData cryptos))
        ok h)
  · rw [if_neg hr]
    exact h

theorem SchedInv_handleMessage (m : ConnectionManager) (c : String)
    (msg : InMsg) (ok : String → Bool) (h : SchedInv m) :
    SchedInv (handleMessage m c msg ok).1 := by
  unfold handleMessage
  by_cases h1 : msg.action = Option.some "subscribe"
  · rw [if_pos h1]
    exact SchedInv_send_personal _ _ c ok
      (SchedInv_subscribe m c msg.crypto_ids h)
  · rw [if_neg h1]
    by_cases h2 : msg.action = Option.some "unsubscribe"
    · rw [if_pos h2]
      exact SchedInv_send_personal _ _ c ok
        (SchedInv_unsubscribe m c msg.crypto_ids h)
    · rw [if_neg h2]
      by_cases h3 : msg.action = Option.some "ping"
      · rw [if_pos h3]
        exact SchedInv_send_personal m _ c ok h
      · rw [if_neg h3]
        exact h

/-- Every reachable state of the registry/scheduler system satisfies the
scheduler-lifecycle invariant. -/
theorem Reachable_SchedInv (m : ConnectionManager) (h : Reachable m) :
    SchedInv m := by
  induction h with
  | init => exact SchedInv_init
  | step hR hS ih =>
    cases hS with
    | connect c => exact SchedInv_connect _ c ih
    | disconnect c => exact SchedInv_disconnect _ c ih
    | subscribe c ids => exact SchedInv_subscribe _ c ids ih
    | unsubscribe c ids => exact SchedInv_unsubscribe _ c ids ih
    | sendPersonal msg c ok => exact SchedInv_send_personal _ msg c ok ih
    | broadcast msg ok => exact SchedInv_broadcast _ msg ok ih
    | broadcastSubs cid msg ok =>
        exact SchedInv_broadcast_subs _ cid msg ok ih
    | tick cryptos ok => exact SchedInv_tickIfRunning _ cryptos ok ih
    | handle c msg ok => exact SchedInv_handleMessage _ c msg ok ih

/-! ## Claim C4 -/

/-- C4: in every reachable state, at most one scheduler task is alive,
the `_running` flag is up exactly when the registry is non-empty, and
once the registry is empty a pass of the scheduler loop produces no
message (the `while self._running` guard fails). -/
theorem C4_single_scheduler_iff_nonempty (m : ConnectionManager)
    (h : Reachable m) (cryptos : List CryptoRecord)
    (ok : String → Bool) :
    m.activeTasks ≤ 1 ∧
    (m.running = true ↔ m.active_connections ≠ []) ∧
    (m.active_connections = [] →
      (tickIfRunning m cryptos ok).2 = []) := by
  have hi := Reachable_SchedInv m h
  refine ⟨?_, hi.2.1, ?_⟩
  · rw [hi.1]
    by_cases hr : m.running <;> simp [hr]
  · intro hc
    have hroff : m.running = false := by
      cases hr : m.running
      · rfl
      · exact absurd hc (hi.2.1.mp hr)
    unfold tickIfRunning
    rw [hroff]
    rfl

/-- C4 (witness): the state reached by connecting `"a"` and then
disconnecting it is back to an empty registry with the scheduler stopped
and a silent tick. -/
theorem C4_single_scheduler_iff_nonempty_witness :
    (disconnect (connect ConnectionManager.init "a") "a").activeTasks ≤ 1 ∧
    ((disconnect (connect ConnectionManager.init "a") "a").running = true ↔
      (disconnect (connect ConnectionManager.init "a")
        "a").active_connections ≠ []) ∧
    ((disconnect (connect ConnectionManager.init "a")
        "a").active_connections = [] →
      (tickIfRunning (disconnect (connect ConnectionManager.init "a") "a")
        [] (fun _ => true)).2 = []) :=
  C4_single_scheduler_iff_nonempty _
    (Reachable.step (Reachable.step Reachable.init (Step.connect _ "a"))
      (Step.disconnect _ "a")) [] (fun _ => true)

/-! ## Claim C5 -/

theorem mem_foldl_filter (L : List String) (cs : List String)
    (y : String)
    (h : y ∈ L.foldl (fun cs x => cs.filter (fun z => z ≠ x)) cs) :
    y ∈ cs := by
  induction L generalizing cs with
  | nil => exact h
  | cons x t ih =>
    have h1 := ih (cs.filter (fun z => z ≠ x)) h
    exact List.mem_of_mem_filter h1

theorem not_mem_foldl_filter (L : List String) (cs : List String)
    (c : String) (hc : c ∈ L) :
    c ∉ L.foldl (fun cs x => cs.filter (fun z => z ≠ x)) cs := by
  induction L generalizing cs with
  | nil => cases hc
  | cons x t ih =>
    intro h
    by_cases hx : x = c
    · subst hx
      have hmem := mem_foldl_filter t (cs.filter (fun z => z ≠ x)) x h
      exact not_mem_filter_ne cs x hmem
    · rcases List.mem_cons.mp hc with h1 | h2
      · exact hx h1.symm
      · exact ih _ h2 h

/-- The registry after folding `disconnect` over an eviction list is the
registry filtered by all the evicted ids. -/
theorem foldl_disconnect_conns (L : List String)
    (m : ConnectionManager) :
    (L.foldl disconnect m).active_connections =
      L.foldl (fun cs x => cs.filter (fun z => z ≠ x))
        m.active_connections := by
  induction L generalizing m with
  | nil => rfl
  | cons x t ih =>
    show (t.foldl disconnect (disconnect m x)).active_connections = _
    rw [ih (disconnect m x), disconnect_conns]
    rfl

/-- C5: `broadcast` attempts a send to every registered connection (the
event list records one attempt per connection, successful or not), and a
connection whose send failed is evicted from the registry while the
others' attempts are unaffected. -/
theorem C5_broadcast_partial_failure (m : ConnectionManager)
    (msg : Message) (ok : String → Bool) :
    (∀ c ∈ m.active_connections,
      SendEvent.mk c msg (ok c) ∈ (broadcast m msg ok).2) ∧
    (∀ c ∈ m.active_connections, ok c = false →
      c ∉ (broadcast m msg ok).1.active_connections) := by
  constructor
  · intro c hc
    show SendEvent.mk c msg (ok c) ∈
      m.active_connections.map (fun c => SendEvent.mk c msg (ok c))
    exact List.mem_map_of_mem _ hc
  · intro c hc hok
    show c ∉ ((m.active_connections.filter (fun x => !(ok x))).foldl
      disconnect m).active_connections
    rw [foldl_disconnect_conns]
    apply not_mem_foldl_filter
    apply List.mem_filter.mpr
    refine ⟨hc, ?_⟩
    simp [hok]

/-- C5 (witness): three registered connections, the send to `"x"` fails:
`"y"` still gets its delivery attempt and `"x"` alone is evicted. -/
theorem C5_broadcast_partial_failure_witness :
    (SendEvent.mk "y" Message.pong true ∈
      (broadcast ⟨["x", "y", "z"], [], true, true, 1⟩ Message.pong
        (fun c => c != "x")).2) ∧
    ("x" ∉ (broadcast ⟨["x", "y", "z"], [], true, true, 1⟩ Message.pong
        (fun c => c != "x")).1.active_connections) :=
  ⟨(C5_broadcast_partial_failure ⟨["x", "y", "z"], [], true, true, 1⟩
      Message.pong (fun c => c != "x")).1 "y" (by decide),
   (C5_broadcast_partial_failure ⟨["x", "y", "z"], [], true, true, 1⟩
      Message.pong (fun c => c != "x")).2 "x" (by decide) (by decide)⟩

/-! ## Claim C6 -/

/-- Every delivery event produced by `broadcast_to_subscribers` carries
the message it was asked to deliver. -/
theorem bts_event_msg (m : ConnectionManager) (cid : String)
    (msg : Message) (ok : String → Bool) :
    ∀ e ∈ (broadcast_to_subscribers m cid msg ok).2, e.msg = msg := by
  unfold broadcast_to_subscribers
  cases m.subscriptions.lookup cid with
  | none =>
    intro e he
    cases he
  | some subs =>
    intro e he
    have he2 : e ∈ (subs.filter
        (fun c => c ∈ m.active_connections)).map
        (fun c => SendEvent.mk c msg (ok c)) := he
    obtain ⟨c, hc, rfl⟩ := List.mem_map.mp he2
    rfl

/-- Every event accumulated by the per-asset delta loop beyond the
initial accumulator is a `coin_update`. -/
theorem foldl_tickDelta_coin (cryptos : List CryptoRecord)
    (ok : String → Bool) (acc : ConnectionManager × List SendEvent)
    (hacc : ∀ e ∈ acc.2, e.msg.isCoinUpdate = true) :
    ∀ e ∈ (cryptos.foldl (tickDelta ok) acc).2,
      e.msg.isCoinUpdate = true := by
  induction cryptos generalizing acc with
  | nil => exact hacc
  | cons cr t ih =>
    apply ih
    intro e he
    unfold tickDelta at he
    by_cases hs : (acc.1.subscriptions.lookup cr.id).isSome
    · rw [if_pos hs] at he
      have he2 : e ∈ acc.2 ++ (broadcast_to_subscribers acc.1 cr.id
          (Message.coin_update (coinDelta cr)) ok).2 := he
      rcases List.mem_append.mp he2 with h1 | h2
      · exact hacc e h1
      · rw [bts_event_msg acc.1 cr.id _ ok e h2]
        rfl
    · rw [if_neg hs] at he
      exact hacc e he

/-- C6: in one successful tick, the first block of delivery events is the
global `price_update` attempt to every connection present at tick start,
and everything after that block is a per-asset `coin_update` delta. -/
theorem C6_global_before_deltas (m : ConnectionManager)
    (cryptos : List CryptoRecord) (ok : String → Bool) :
    (∀ c ∈ m.active_connections,
      SendEvent.mk c (Message.price_update (priceData cryptos)) (ok c) ∈
        (tickBody m cryptos ok).2.take m.active_connections.length) ∧
    (∀ e ∈ (tickBody m cryptos ok).2.drop m.active_connections.length,
      e.msg.isCoinUpdate = true) := by
  have hev : (tickBody m cryptos ok).2 =
      (m.active_connections.map (fun c =>
        SendEvent.mk c (Message.price_update (priceData cryptos))
          (ok c))) ++
      (cryptos.foldl (tickDelta ok)
        ((broadcast m (Message.price_update (priceData cryptos)) ok).1,
          [])).2 := rfl
  have hlen : m.active_connections.length =
      (m.active_connections.map (fun c =>
        SendEvent.mk c (Message.price_update (priceData cryptos))
          (ok c))).length := (List.length_map _ _).symm
  constructor
  · intro c hc
    rw [hev, hlen, List.take_left]
    exact List.mem_map_of_mem _ hc
  · intro e he
    rw [hev, hlen, List.drop_left] at he
    exact foldl_tickDelta_coin cryptos ok _
      (fun e h => absurd h (List.not_mem_nil e)) e he

/-- C6 (witness): one connection `"x"` subscribed to `"btc"`: its global
`price_update` attempt sits in the first block, and the event after the
block is the `"btc"` `coin_update`. -/
theorem C6_global_before_deltas_witness :
    (SendEvent.mk "x" (Message.price_update (priceData [⟨"btc", "BTC",
        "Bitcoin", 1, Option.none, Option.none⟩])) true ∈
      (tickBody ⟨["x"], [("btc", ["x"])], true, true, 1⟩
        [⟨"btc", "BTC", "Bitcoin", 1, Option.none, Option.none⟩]
        (fun _ => true)).2.take 1) ∧
    (SendEvent.mk "x" (Message.coin_update ⟨"btc", "BTC", "Bitcoin", 1,
        Option.none, Option.none⟩) true).msg.isCoinUpdate = true :=
  ⟨(C6_global_before_deltas ⟨["x"], [("btc", ["x"])], true, true, 1⟩
      [⟨"btc", "BTC", "Bitcoin", 1, Option.none, Option.none⟩]
      (fun _ => true)).1 "x" (by decide),
   (C6_global_before_deltas ⟨["x"], [("btc", ["x"])], true, true, 1⟩
      [⟨"btc", "BTC", "Bitcoin", 1, Option.none, Option.none⟩]
      (fun _ => true)).2 _ (by decide)⟩

/-! ## Claim C9 -/

/-- C9: an inbound control message whose `action` is not `"subscribe"`,
`"unsubscribe"` or `"ping"` (including a missing action) falls through
the dispatch with no state change and no outbound message. -/
theorem C9_unknown_action_noop (m : ConnectionManager)
    (client_id : String) (msg : InMsg) (ok : String → Bool)
    (h1 : msg.action ≠ Option.some "subscribe")
    (h2 : msg.action ≠ Option.some "unsubscribe")
    (h3 : msg.action ≠ Option.some "ping") :
    handleMessage m client_id msg ok = (m, []) := by
  unfold handleMessage
  rw [if_neg h1, if_neg h2, if_neg h3]

/-- C9 (witness): a message with no `action` field is a complete no-op. -/
theorem C9_unknown_action_noop_witness :
    handleMessage ConnectionManager.init "c1" ⟨Option.none, []⟩
      (fun _ => true) = (ConnectionManager.init, []) :=
  C9_unknown_action_noop ConnectionManager.init "c1" ⟨Option.none, []⟩
    (fun _ => true) (by decide) (by decide) (by decide)

end CryptoTracker
